import Mathlib

set_option maxRecDepth 4000

/-!
Verification of the Liviti voice-coach session engine.

The definitions below are a shallow embedding of the TypeScript source:

* `detectSafetyLevel` / `checkSafetyLevel` — the local keyword safety
  classifier of `lib/api.ts`.
* `getAIResponse` — the client wrapper around `/api/ai-response`, with its
  fixed fallback response on failure.
* `handlerAIResponse` — the normalisation stage of the `/api/ai-response`
  server handler (safety-level coercion, message fallback, micro-action id
  assignment), applied to an already-parsed model payload.
* `processUserText`, `handleMicroActionClick`, `processAudio`,
  `handleStopRecording` — the session page turn logic; the React `useState`
  cells are gathered into a `Session` record and each handler becomes a
  function from the old session (plus the outcomes of the remote calls,
  passed as explicit parameters) to the new session.
* `stopAssistantVoice` / `playAssistantVoicePrologue` /
  `playAssistantVoiceResume` — the voice playback controller; the global
  `currentAudio` reference becomes `PlayerState`, with a ghost list of audio
  elements that are playing and not yet paused. The awaits inside
  `playAssistantVoice` split it into a synchronous prologue and a
  resumption, so overlapping calls are represented as interleaved
  `PlaybackEv` event sequences.
* `logConversation` / `readConversationLogs` — the conversation logger,
  with the runtime environment (client vs server, file present or not,
  failing reads or appends) passed as an explicit `LogEnv`.

Nondeterministic inputs of the real program (remote call results, generated
ids) are parameters of the functions; wall-clock timestamps are omitted.
-/

namespace Liviti

/-- Safety tiers from `types/index.ts`. -/
inductive SafetyLevel where
  | safe
  | caution
  | crisis
deriving DecidableEq, Repr

/-- Message author roles from `types/index.ts`. -/
inductive MessageRole where
  | user
  | assistant
deriving DecidableEq, Repr

/-- Session states from `types/index.ts`. -/
inductive SessionState where
  | idle
  | recording
  | processing
  | responding
deriving DecidableEq, Repr

/-- Research citation attached to assistant replies (`types/index.ts`). -/
structure Reference where
  title : String
  url : String
  snippet : String
deriving DecidableEq, Repr

/-- Suggested micro-action (`types/index.ts`). -/
structure MicroAction where
  id : String
  title : String
  description : String
deriving DecidableEq, Repr

/-- Chat message (`types/index.ts`); the `timestamp : Date` field is omitted
from the embedding since no claim mentions wall-clock time. -/
structure Message where
  id : String
  role : MessageRole
  content : String
  references : Option (List Reference)
deriving DecidableEq, Repr

/-- Model-issued music intent (`types/index.ts`). Optional string fields use
`none` for an absent JSON field. -/
structure MusicRequest where
  shouldPlay : Bool
  searchQuery : Option String
  musicType : Option String
  youtubeVideoId : Option String
deriving DecidableEq, Repr

/-- An inline music player added to the session (`types/index.ts`). -/
structure MusicPlayerInstance where
  id : String
  triggerMessageId : String
  videoId : String
  title : String
deriving DecidableEq, Repr

/-- Structured AI response delivered to the client (`types/index.ts`). -/
structure AIResponse where
  message : String
  microActions : Option (List MicroAction)
  safetyLevel : SafetyLevel
  musicRequest : Option MusicRequest
  references : Option (List Reference)
deriving DecidableEq, Repr

/-- ASCII lowercasing of one character, as `String.prototype.toLowerCase`
acts on the ASCII range (the keyword lists are pure ASCII). -/
def jsCharToLower (c : Char) : Char :=
  if 65 ≤ c.toNat ∧ c.toNat ≤ 90 then Char.ofNat (c.toNat + 32) else c

/-- Characterwise lowercasing, `message.toLowerCase()`. -/
def jsToLower (s : String) : String :=
  String.mk (s.data.map jsCharToLower)

/-- Leading and trailing whitespace removal, `text.trim()`. -/
def jsTrim (s : String) : String :=
  String.mk (((s.data.dropWhile Char.isWhitespace).reverse.dropWhile Char.isWhitespace).reverse)

/-- JavaScript truthiness of an optional string: `undefined`, `null` and the
empty string are falsy. -/
def strTruthy : Option String → Bool
  | none => false
  | some s => !s.isEmpty

/-- The JavaScript idiom `s || null`: a falsy optional string collapses to
`none`. -/
def jsOr (o : Option String) : Option String :=
  if strTruthy o then o else none

/-- Substring test on character lists, mirroring JavaScript
`String.prototype.includes`. -/
def isSubstr (needle : List Char) : List Char → Bool
  | [] => needle.isEmpty
  | c :: rest => needle.isPrefixOf (c :: rest) || isSubstr needle rest

/-- String-level `includes`: the keyword occurs contiguously in the text. -/
def includes (hay kw : String) : Bool :=
  isSubstr kw.data hay.data

/-- Crisis keyword list of `detectSafetyLevel` in `lib/api.ts`. -/
def crisisKeywords : List String :=
  [("suicide"), ("kill myself"), ("end it all"), ("hurt myself"), ("harm"), ("kill")]

/-- Caution keyword list of `detectSafetyLevel` in `lib/api.ts`. -/
def cautionKeywords : List String :=
  [("hopeless"), ("helpless"), ("no hope"), ("can\x27t continue"), ("give up")]

/-- Local keyword safety classifier, `detectSafetyLevel` in `lib/api.ts`. -/
def detectSafetyLevel (message : String) : SafetyLevel :=
  let lowerMessage := jsToLower message
  if crisisKeywords.any (fun kw => includes lowerMessage kw) then SafetyLevel.crisis
  else if cautionKeywords.any (fun kw => includes lowerMessage kw) then SafetyLevel.caution
  else SafetyLevel.safe

/-- Exported safety check of `lib/api.ts`: resolves `detectSafetyLevel text`
after a 300 ms timer (the timer is immaterial to the value). -/
def checkSafetyLevel (text : String) : SafetyLevel :=
  detectSafetyLevel text

/-- Outcome of the `/api/transcribe` fetch inside `transcribeAudio`. -/
inductive TranscribeOutcome where
  | ok (transcript : String)
  | httpError (status : Nat)
  | threw
deriving DecidableEq, Repr

/-- Fallback sentence returned by `transcribeAudio` when the request fails. -/
def transcriptionFallback : String :=
  ("（语音转文字暂时出错了，如果方便的话，可以先用文字简单打几句描述一下你的感受。）")

/-- Client transcription wrapper, `transcribeAudio` in `lib/api.ts`: a
non-success status throws and every thrown error is caught and replaced by
the fixed fallback sentence. -/
def transcribeAudio : TranscribeOutcome → String
  | TranscribeOutcome.ok t => t
  | TranscribeOutcome.httpError _ => transcriptionFallback
  | TranscribeOutcome.threw => transcriptionFallback

/-- Outcome of the `/api/ai-response` fetch inside `getAIResponse`. -/
inductive AIFetchOutcome where
  | ok (resp : AIResponse)
  | httpError (status : Nat)
  | threw
deriving DecidableEq, Repr

/-- Apology message of the fixed fallback response in `getAIResponse`. -/
def fallbackAIMessage : String :=
  ("抱歉，我这边暂时遇到了一点技术问题，没能正常生成回应。但你刚刚分享的内容对我来说依然很重要。可以稍微深呼吸一下，如果你方便的话，可以再描述一下此刻最困扰你的一个点吗？")

/-- The fixed safe fallback response built in `getAIResponse` of
`lib/api.ts`. -/
def fallbackAIResponse : AIResponse :=
  { message := fallbackAIMessage
    microActions := some
      [{ id := ("fallback-1")
         title := ("做 3 次深呼吸")
         description := ("缓慢吸气 4 秒，停顿 1 秒，然后呼气 6 秒，重复 3 次。") }]
    safetyLevel := SafetyLevel.safe
    musicRequest := none
    references := some [] }

/-- Client AI-response wrapper, `getAIResponse` in `lib/api.ts`: a
non-success status throws, and every thrown error is caught and replaced by
the fixed fallback response. -/
def getAIResponse : AIFetchOutcome → AIResponse
  | AIFetchOutcome.ok r => r
  | AIFetchOutcome.httpError _ => fallbackAIResponse
  | AIFetchOutcome.threw => fallbackAIResponse

/-- Micro-action as it appears in the parsed model JSON, before the server
handler assigns ids; an absent or empty id is the empty string (both are
falsy in the `m.id || ...` check). -/
structure RawMicroAction where
  id : String
  title : String
  description : String
deriving DecidableEq, Repr

/-- Successfully parsed model payload in the `/api/ai-response` handler
(`LLMRawResponse`); `message` and `safetyLevel` are raw JSON fields that may
be absent or hold arbitrary strings. -/
structure ParsedLLM where
  message : Option String
  safetyLevel : Option String
  microActions : Option (List RawMicroAction)
  musicRequest : Option MusicRequest
deriving DecidableEq, Repr

/-- Safety-level validation in the handler: keep caution and crisis, coerce
everything else (including an absent field or the literal safe) to safe. -/
def coerceSafetyLevel (raw : Option String) : SafetyLevel :=
  if raw = some ("caution") then SafetyLevel.caution
  else if raw = some ("crisis") then SafetyLevel.crisis
  else SafetyLevel.safe

/-- Fallback assistant sentence substituted by the handler when the parsed
message is falsy. -/
def handlerFallbackMessage : String :=
  ("抱歉，我现在没能正常生成回应，但我依然在这里陪着你。")

/-- Deterministic id assignment for a returned micro-action without an id:
`m.id || llm-(index+1)`. -/
def assignActionId (index : Nat) (m : RawMicroAction) : MicroAction :=
  { id := if m.id.isEmpty then ("llm-") ++ toString (index + 1) else m.id
    title := m.title
    description := m.description }

/-- Normalised `AIResponse` built by the `/api/ai-response` handler from a
successfully parsed model payload and the fetched references. -/
def handlerAIResponse (p : ParsedLLM) (refs : List Reference) : AIResponse :=
  { message :=
      match jsOr p.message with
      | some m => m
      | none => handlerFallbackMessage
    safetyLevel := coerceSafetyLevel p.safetyLevel
    microActions := p.microActions.map (fun l => l.enum.map (fun x => assignActionId x.1 x.2))
    musicRequest := p.musicRequest
    references := some refs }

/-- HTTP status and body returned by the handler on the successful-parse
path. -/
def handlerOutput (p : ParsedLLM) (refs : List Reference) : Nat × AIResponse :=
  (200, handlerAIResponse p refs)

/-- The session-page React state cells gathered into one record. -/
structure Session where
  messages : List Message
  sessionState : SessionState
  safetyLevel : SafetyLevel
  showSafetyBanner : Bool
  currentMicroActions : List MicroAction
  musicPlayers : List MusicPlayerInstance
deriving DecidableEq, Repr

/-- Outcome of the `/api/youtube-search` fetch inside `handleMusicRequest`;
`ok` carries the `videoId` field of the JSON body (absent is `none`). -/
inductive YTSearchOutcome where
  | ok (videoId : Option String)
  | httpError (status : Nat)
  | threw
deriving DecidableEq, Repr

/-- The `resolvedVideoId` computation of `handleMusicRequest`: a truthy
direct id wins; otherwise, with a truthy search query, the search result is
consulted, every failure path yielding `none`. -/
def resolveVideoId (req : MusicRequest) (search : YTSearchOutcome) : Option String :=
  match jsOr req.youtubeVideoId with
  | some v => some v
  | none =>
    if strTruthy req.searchQuery then
      match search with
      | YTSearchOutcome.ok vid => jsOr vid
      | YTSearchOutcome.httpError _ => none
      | YTSearchOutcome.threw => none
    else none

/-- Music resolver `handleMusicRequest` of the session page: its effect on
the `musicPlayers` list. Every early return and the catch-all error handler
leave the list unchanged; a resolved id appends exactly one player. -/
def handleMusicRequest (players : List MusicPlayerInstance) (req : MusicRequest)
    (triggerMessageId : String) (search : YTSearchOutcome) (newPlayerId : String) :
    List MusicPlayerInstance :=
  if !strTruthy req.searchQuery && !strTruthy req.youtubeVideoId then players
  else
    match resolveVideoId req search with
    | none => players
    | some v =>
      players ++
        [{ id := newPlayerId
           triggerMessageId := triggerMessageId
           videoId := v
           title := (jsOr req.musicType).getD ("Music") }]

/-- Externally supplied data of one turn: generated ids and the result of
the music search, passed explicitly instead of being read from the clock or
the network. -/
structure TurnCtx where
  userMsgId : String
  assistantMsgId : String
  musicPlayerId : String
  searchOutcome : YTSearchOutcome
deriving DecidableEq, Repr

/-- The `aiResponse.musicRequest?.shouldPlay` guard. -/
def shouldPlayMusic (resp : AIResponse) : Bool :=
  match resp.musicRequest with
  | some req => req.shouldPlay
  | none => false

/-- Turn processing `processUserText` of the session page, as a function on
the session record. The model response and safety check are awaited
together; `resp` is the resolved `getAIResponse` value. An empty trimmed
text returns early, leaving every cell (including `sessionState`)
unchanged. -/
def processUserText (s : Session) (text : String) (resp : AIResponse) (ctx : TurnCtx) :
    Session :=
  let trimmed := jsTrim text
  if trimmed.isEmpty then s
  else
    let userMessage : Message :=
      { id := ctx.userMsgId, role := MessageRole.user, content := trimmed, references := none }
    let s1 := { s with
      messages := s.messages ++ [userMessage]
      sessionState := SessionState.responding }
    let safety := checkSafetyLevel trimmed
    let s2 := { s1 with
      safetyLevel := safety
      showSafetyBanner := if safety ≠ SafetyLevel.safe then true else s1.showSafetyBanner }
    let assistantMessage : Message :=
      { id := ctx.assistantMsgId, role := MessageRole.assistant, content := resp.message
        references := resp.references }
    let s3 := { s2 with messages := s2.messages ++ [assistantMessage] }
    let s4 := { s3 with
      currentMicroActions :=
        match resp.microActions with
        | some actions => actions
        | none => s3.currentMicroActions }
    let s5 :=
      if shouldPlayMusic resp then
        match resp.musicRequest with
        | some req =>
          { s4 with
            musicPlayers :=
              handleMusicRequest s4.musicPlayers req ctx.assistantMsgId
                ctx.searchOutcome ctx.musicPlayerId }
        | none => s4
      else s4
    { s5 with sessionState := SessionState.idle }

/-- Voice turn processing `processAudio` of the session page: transcribe,
then hand the transcript to `processUserText`. -/
def processAudio (s : Session) (t : TranscribeOutcome) (resp : AIResponse) (ctx : TurnCtx) :
    Session :=
  processUserText s (transcribeAudio t) resp ctx

/-- Stop-recording handler of the session page: a recording session moves to
processing and the recorder `onstop` event then runs `processAudio`. -/
def handleStopRecording (s : Session) : Session :=
  if s.sessionState = SessionState.recording then
    { s with sessionState := SessionState.processing }
  else s

/-- One complete recorded voice turn: stop recording, then process the
captured audio. -/
def recordedVoiceTurn (s : Session) (t : TranscribeOutcome) (resp : AIResponse)
    (ctx : TurnCtx) : Session :=
  processAudio (handleStopRecording s) t resp ctx

/-- The synthetic user-visible content of a micro-action click. -/
def microActionClickContent (action : MicroAction) : String :=
  ("[Clicked on micro-action: ") ++ action.title ++ ("]")

/-- Micro-action click handler `handleMicroActionClick` of the session page.
Clicks outside the idle state are ignored; the safety level is updated from
the model-reported level only, and only when that level is not safe. -/
def handleMicroActionClick (s : Session) (action : MicroAction) (resp : AIResponse)
    (ctx : TurnCtx) : Session :=
  if s.sessionState ≠ SessionState.idle then s
  else
    let s1 := { s with sessionState := SessionState.responding }
    let userMessage : Message :=
      { id := ctx.userMsgId, role := MessageRole.user
        content := microActionClickContent action, references := none }
    let s2 := { s1 with messages := s1.messages ++ [userMessage] }
    let assistantMessage : Message :=
      { id := ctx.assistantMsgId, role := MessageRole.assistant, content := resp.message
        references := resp.references }
    let s3 := { s2 with messages := s2.messages ++ [assistantMessage] }
    let s4 := { s3 with
      currentMicroActions :=
        match resp.microActions with
        | some actions => actions
        | none => s3.currentMicroActions }
    let s5 :=
      if shouldPlayMusic resp then
        match resp.musicRequest with
        | some req =>
          { s4 with
            musicPlayers :=
              handleMusicRequest s4.musicPlayers req ctx.assistantMsgId
                ctx.searchOutcome ctx.musicPlayerId }
        | none => s4
      else s4
    let s6 :=
      if resp.safetyLevel ≠ SafetyLevel.safe then
        { s5 with safetyLevel := resp.safetyLevel, showSafetyBanner := true }
      else s5
    { s6 with sessionState := SessionState.idle }

/-- Severity order of safety levels stated in the spec data model. -/
def severityRank : SafetyLevel → Nat
  | SafetyLevel.safe => 0
  | SafetyLevel.caution => 1
  | SafetyLevel.crisis => 2

/-- Modelled from the spec: the combination rule "its result and the model
self-reported safety level are combined by taking the stricter of the two
before display". This definition follows the spec wording and is compared
against the behaviour of `processUserText`. -/
def stricterLevel (a b : SafetyLevel) : SafetyLevel :=
  if severityRank a < severityRank b then b else a

/-- State of the voice playback controller in `lib/api.ts`: the module-level
`currentAudio` reference, plus a ghost list of the audio elements that have
been started and not yet paused or released. Audio elements are named by
numbers. -/
structure PlayerState where
  current : Option Nat
  active : List Nat
deriving DecidableEq, Repr

/-- `stopAssistantVoice` of `lib/api.ts`: pause and release the tracked
audio element, if any, and clear the reference. -/
def stopAssistantVoice (ps : PlayerState) : PlayerState :=
  match ps.current with
  | none => ps
  | some a => { current := none, active := ps.active.erase a }

/-- Outcome of the `/api/tts` fetch inside `playAssistantVoice`. -/
inductive TTSOutcome where
  | ok
  | httpError (status : Nat)
  | threw
deriving DecidableEq, Repr

/-- State of an execution with possibly overlapping `playAssistantVoice`
calls: the controller state (`currentAudio` plus the ghost playing list)
and the calls currently suspended at the `/api/tts` await, each named by
the audio element it will create on resumption. -/
structure AsyncPlayerState where
  player : PlayerState
  pending : List Nat
deriving DecidableEq, Repr

/-- Synchronous prologue of `playAssistantVoice` (`lib/api.ts`): the blank
check and the `stopAssistantVoice()` call, which run before the first
await; a non-blank call is then suspended on its synthesis fetch. -/
def playAssistantVoicePrologue (st : AsyncPlayerState) (text : String) (newAudio : Nat) :
    AsyncPlayerState :=
  if (jsTrim text).isEmpty then st
  else { player := stopAssistantVoice st.player, pending := st.pending ++ [newAudio] }

/-- Resumption of a suspended `playAssistantVoice` call once its fetch
settles: on success the new audio element starts playing and becomes the
tracked one — nothing is paused here, the stop already ran in the
prologue — and on failure the call just returns. -/
def playAssistantVoiceResume (st : AsyncPlayerState) (newAudio : Nat) (fetch : TTSOutcome) :
    AsyncPlayerState :=
  if newAudio ∈ st.pending then
    let rest := st.pending.erase newAudio
    match fetch with
    | TTSOutcome.ok =>
      { player := { current := some newAudio, active := st.player.active ++ [newAudio] }
        pending := rest }
    | TTSOutcome.httpError _ => { st with pending := rest }
    | TTSOutcome.threw => { st with pending := rest }
  else st

/-- Scheduler events of the playback controller: a speak call entering (its
synchronous prologue), a suspended call resuming after its fetch, an
explicit stop, and the stop at the top of `handleStartRecording`. An
interleaving of overlapping calls is an arbitrary order of these events.
Audio `ended`/`error` events are omitted: they only remove elements from
the playing list, so the counts proved below bound the real ones. -/
inductive PlaybackEv where
  | speakStart (text : String) (newAudio : Nat)
  | speakResume (newAudio : Nat) (fetch : TTSOutcome)
  | stop
  | startRecording
deriving DecidableEq, Repr

/-- One scheduler event applied to the state. -/
def asyncStep (st : AsyncPlayerState) : PlaybackEv → AsyncPlayerState
  | PlaybackEv.speakStart text newAudio => playAssistantVoicePrologue st text newAudio
  | PlaybackEv.speakResume newAudio fetch => playAssistantVoiceResume st newAudio fetch
  | PlaybackEv.stop => { st with player := stopAssistantVoice st.player }
  | PlaybackEv.startRecording => { st with player := stopAssistantVoice st.player }

/-- A sequence of scheduler events applied in order. -/
def asyncRun (st : AsyncPlayerState) (evs : List PlaybackEv) : AsyncPlayerState :=
  evs.foldl asyncStep st

/-- Initial controller state: `currentAudio = null`, nothing playing. -/
def initPlayer : PlayerState :=
  { current := none, active := [] }

/-- Initial execution state: no playback and no suspended call. -/
def initAsyncPlayer : AsyncPlayerState :=
  { player := initPlayer, pending := [] }

/-- Controller invariant: the playing audio elements are exactly the tracked
one. -/
def PlayerInv (ps : PlayerState) : Prop :=
  ps.active = ps.current.toList

/-- A completed, non-overlapping playback call: a speak whose synthesis
fetch settles before any further playback event, an explicit stop, or a
recording start. -/
inductive PlaybackOp where
  | speak (text : String) (newAudio : Nat) (fetch : TTSOutcome)
  | stop
  | startRecording
deriving DecidableEq, Repr

/-- The scheduler events of one non-overlapping call. -/
def eventsOfOp : PlaybackOp → List PlaybackEv
  | PlaybackOp.speak text newAudio fetch =>
    [PlaybackEv.speakStart text newAudio, PlaybackEv.speakResume newAudio fetch]
  | PlaybackOp.stop => [PlaybackEv.stop]
  | PlaybackOp.startRecording => [PlaybackEv.startRecording]

/-- The scheduler events of a sequence of non-overlapping calls. -/
def seqEvents (ops : List PlaybackOp) : List PlaybackEv :=
  (ops.map eventsOfOp).flatten

/-- Runtime environment of the conversation logger: whether the code runs in
a browser, whether the `fs` module is available, the current content of
`logs/conversations.jsonl` (`none` when missing), and whether the read or
the append system call fails. -/
structure LogEnv where
  isClient : Bool
  hasFs : Bool
  file : Option String
  readFails : Bool
  appendFails : Bool
deriving DecidableEq, Repr

/-- Collect a list of optional values; any failure poisons the whole list,
mirroring `JSON.parse` throwing inside `lines.map`. -/
def sequenceOption {α : Type} : List (Option α) → Option (List α)
  | [] => some []
  | o :: rest =>
    match o, sequenceOption rest with
    | some x, some xs => some (x :: xs)
    | _, _ => none

/-- `readConversationLogs` of `lib/logger.ts`: empty outside a server
context, empty when the file is missing, and empty when reading or parsing
throws (the whole body is wrapped in try/catch returning `[]`). `parseLine`
stands for `JSON.parse` on one line. -/
def readConversationLogs {Log : Type} (parseLine : String → Option Log) (env : LogEnv) :
    List Log :=
  if env.isClient || !env.hasFs then []
  else
    match env.file with
    | none => []
    | some content =>
      if env.readFails then []
      else
        let lines := ((jsTrim content).splitOn ("\n")).filter (fun l => !(jsTrim l).isEmpty)
        match sequenceOption (lines.map parseLine) with
        | some logs => logs
        | none => []

/-- The raw `fs.appendFileSync` call: it may throw; on success one line is
added to the file (created when missing). -/
def appendFileRaw (env : LogEnv) (line : String) : Except String LogEnv :=
  if env.appendFails then Except.error ("EIO")
  else Except.ok { env with file := some ((env.file.getD ("")) ++ line) }

/-- `logConversation` of `lib/logger.ts`: a silent no-op on the client or
without `fs`; otherwise the append runs under try/catch, a failure leaving
the environment unchanged and raising nothing. The total return type
records that no exception escapes. -/
def logConversation (env : LogEnv) (logLine : String) : LogEnv :=
  if env.isClient || !env.hasFs then env
  else
    match appendFileRaw env (logLine ++ ("\n")) with
    | Except.ok e => e
    | Except.error _ => env

/-- A session sitting idle with nothing displayed. -/
def idleSession : Session :=
  { messages := []
    sessionState := SessionState.idle
    safetyLevel := SafetyLevel.safe
    showSafetyBanner := false
    currentMicroActions := []
    musicPlayers := [] }

/-- A session in the middle of recording a voice turn. -/
def recordingSession : Session :=
  { idleSession with sessionState := SessionState.recording }

/-- A plain model response with no optional payloads. -/
def plainResponse : AIResponse :=
  { message := ("I hear you.")
    microActions := none
    safetyLevel := SafetyLevel.safe
    musicRequest := none
    references := none }

/-- A model response self-reporting the crisis level. -/
def crisisModelResponse : AIResponse :=
  { plainResponse with
    message := ("Please reach out for help.")
    safetyLevel := SafetyLevel.crisis }

/-- Concrete turn context used by the concrete evaluations. -/
def ctx0 : TurnCtx :=
  { userMsgId := ("msg-u1")
    assistantMsgId := ("msg-a1")
    musicPlayerId := ("music-1")
    searchOutcome := YTSearchOutcome.threw }

/-- A micro-action left over from an earlier turn. -/
def stockAction : MicroAction :=
  { id := ("a1"), title := ("Take a walk"), description := ("Walk for five minutes.") }

/-- A music request carrying only a search query. -/
def demoMusicReq : MusicRequest :=
  { shouldPlay := true
    searchQuery := some ("calm piano")
    musicType := some ("calm")
    youtubeVideoId := none }

/-- A model response self-reporting the caution level. -/
def cautionModelResponse : AIResponse :=
  { plainResponse with safetyLevel := SafetyLevel.caution }

/-- A logger environment with no durable storage (pure client context). -/
def deadEnv : LogEnv :=
  { isClient := true, hasFs := false, file := none, readFails := false, appendFails := false }

/-!
Theorems. Helper lemmas come first; each claim of the specification is then
settled by one named theorem (with a witness or counterexample where
required).
-/

/-- Characterisation of a completed `processUserText` turn on a non-blank
text: every resulting state cell, spelled out. -/
theorem processUserText_result (s : Session) (text : String) (resp : AIResponse)
    (ctx : TurnCtx) (h : (jsTrim text).isEmpty = false) :
    processUserText s text resp ctx =
      { messages := s.messages ++
          [{ id := ctx.userMsgId, role := MessageRole.user, content := jsTrim text
             references := none },
           { id := ctx.assistantMsgId, role := MessageRole.assistant, content := resp.message
             references := resp.references }]
        sessionState := SessionState.idle
        safetyLevel := checkSafetyLevel (jsTrim text)
        showSafetyBanner :=
          if checkSafetyLevel (jsTrim text) ≠ SafetyLevel.safe then true else s.showSafetyBanner
        currentMicroActions :=
          match resp.microActions with
          | some actions => actions
          | none => s.currentMicroActions
        musicPlayers :=
          if shouldPlayMusic resp then
            match resp.musicRequest with
            | some req =>
              handleMusicRequest s.musicPlayers req ctx.assistantMsgId
                ctx.searchOutcome ctx.musicPlayerId
            | none => s.musicPlayers
          else s.musicPlayers } := by
  unfold processUserText
  rw [if_neg (by simp [h])]
  cases hma : resp.microActions <;> cases hmr : resp.musicRequest <;>
    simp [shouldPlayMusic, hma, hmr] <;> split <;> simp

/-- Characterisation of a completed `handleMicroActionClick` turn from the
idle state: every resulting state cell, spelled out. -/
theorem handleMicroActionClick_result (s : Session) (action : MicroAction)
    (resp : AIResponse) (ctx : TurnCtx) (h : s.sessionState = SessionState.idle) :
    handleMicroActionClick s action resp ctx =
      { messages := s.messages ++
          [{ id := ctx.userMsgId, role := MessageRole.user
             content := microActionClickContent action, references := none },
           { id := ctx.assistantMsgId, role := MessageRole.assistant, content := resp.message
             references := resp.references }]
        sessionState := SessionState.idle
        safetyLevel :=
          if resp.safetyLevel ≠ SafetyLevel.safe then resp.safetyLevel else s.safetyLevel
        showSafetyBanner :=
          if resp.safetyLevel ≠ SafetyLevel.safe then true else s.showSafetyBanner
        currentMicroActions :=
          match resp.microActions with
          | some actions => actions
          | none => s.currentMicroActions
        musicPlayers :=
          if shouldPlayMusic resp then
            match resp.musicRequest with
            | some req =>
              handleMusicRequest s.musicPlayers req ctx.assistantMsgId
                ctx.searchOutcome ctx.musicPlayerId
            | none => s.musicPlayers
          else s.musicPlayers } := by
  unfold handleMicroActionClick
  rw [if_neg (by simp [h])]
  cases hma : resp.microActions <;> cases hmr : resp.musicRequest <;>
    by_cases hsl : resp.safetyLevel = SafetyLevel.safe <;>
      simp [shouldPlayMusic, hma, hmr, hsl] <;> split <;> simp

/-- Claim C1, counterexample: the displayed safety level is not the stricter
of the local classifier result and the model-reported level. On the text
hello (locally safe) with a model response self-reporting crisis, the level
after the turn is safe while the stricter of the two is crisis. -/
theorem displayed_level_ignores_model_level_cex :
    (processUserText idleSession ("hello") crisisModelResponse ctx0).safetyLevel =
        SafetyLevel.safe ∧
    stricterLevel (checkSafetyLevel (jsTrim ("hello"))) crisisModelResponse.safetyLevel =
        SafetyLevel.crisis ∧
    (processUserText idleSession ("hello") crisisModelResponse ctx0).safetyLevel ≠
      stricterLevel (checkSafetyLevel (jsTrim ("hello"))) crisisModelResponse.safetyLevel := by
  decide

/-- Claim C1, amended: after a text turn the session safety level is exactly
the local classifier result (the model-reported level is not consulted); in
particular a turn whose text the local classifier rates crisis displays
crisis even when the model reports caution. After a micro-action turn the
level is the model-reported one when that is not safe, the previous level
otherwise. -/
theorem turn_safety_source_spec (s : Session) (text : String) (action : MicroAction)
    (resp : AIResponse) (ctx : TurnCtx) (h : (jsTrim text).isEmpty = false) :
    (processUserText s text resp ctx).safetyLevel = checkSafetyLevel (jsTrim text) ∧
    (checkSafetyLevel (jsTrim text) = SafetyLevel.crisis →
      resp.safetyLevel = SafetyLevel.caution →
      (processUserText s text resp ctx).safetyLevel = SafetyLevel.crisis) ∧
    (s.sessionState = SessionState.idle →
      (handleMicroActionClick s action resp ctx).safetyLevel =
        if resp.safetyLevel ≠ SafetyLevel.safe then resp.safetyLevel else s.safetyLevel) := by
  refine ⟨?_, ?_, ?_⟩
  · rw [processUserText_result s text resp ctx h]
  · intro hc _
    rw [processUserText_result s text resp ctx h]
    exact hc
  · intro hidle
    rw [handleMicroActionClick_result s action resp ctx hidle]

/-- Witness for claim C1 at a concrete input: the text mentions ending it
all, the local classifier rates it crisis, the model reports caution, and
the displayed level is crisis. -/
theorem turn_safety_source_spec_witness :
    (jsTrim ("I want to end it all")).isEmpty = false ∧
    (processUserText idleSession ("I want to end it all") cautionModelResponse ctx0).safetyLevel =
      SafetyLevel.crisis :=
  ⟨by decide,
    (turn_safety_source_spec idleSession ("I want to end it all") stockAction
        cautionModelResponse ctx0 (by decide)).2.1 (by decide) (by decide)⟩

/-- Claim C2 (code bug): a recorded voice turn whose transcription succeeds
with an empty or whitespace-only transcript does not proceed with a
fallback apology — `processUserText` returns before resetting the state,
leaving the session stuck in processing. Only a failed transcription
(thrown or non-success status) substitutes the fallback sentence and
returns the session to idle. -/
theorem empty_transcript_leaves_processing_state :
    (recordedVoiceTurn recordingSession (TranscribeOutcome.ok ("")) plainResponse
        ctx0).sessionState = SessionState.processing ∧
    (recordedVoiceTurn recordingSession (TranscribeOutcome.ok (("  "))) plainResponse
        ctx0).sessionState = SessionState.processing ∧
    (recordedVoiceTurn recordingSession TranscribeOutcome.threw plainResponse
        ctx0).sessionState = SessionState.idle ∧
    (recordedVoiceTurn recordingSession (TranscribeOutcome.httpError (500)) plainResponse
        ctx0).sessionState = SessionState.idle := by
  decide

/-- Claim C3, counterexample: a turn whose model response carries no
`microActions` field leaves the stale list of the previous turn in place
instead of emptying it. -/
theorem missing_microActions_keeps_stale_list_cex :
    plainResponse.microActions = none ∧
    (processUserText { idleSession with currentMicroActions := [stockAction] } ("hello")
        plainResponse ctx0).currentMicroActions = [stockAction] ∧
    (processUserText { idleSession with currentMicroActions := [stockAction] } ("hello")
        plainResponse ctx0).currentMicroActions ≠ [] := by
  decide

/-- Claim C3, amended: on each completed turn the suggestion list is
replaced by the micro-actions of the new response when the response carries
a `microActions` field (even an empty one); when the field is absent the
previous list is retained, not cleared. -/
theorem microActions_replaced_only_when_present (s : Session) (text : String)
    (action : MicroAction) (resp : AIResponse) (ctx : TurnCtx)
    (h : (jsTrim text).isEmpty = false) :
    (processUserText s text resp ctx).currentMicroActions =
      (match resp.microActions with
       | some actions => actions
       | none => s.currentMicroActions) ∧
    (s.sessionState = SessionState.idle →
      (handleMicroActionClick s action resp ctx).currentMicroActions =
        (match resp.microActions with
         | some actions => actions
         | none => s.currentMicroActions)) := by
  refine ⟨?_, ?_⟩
  · rw [processUserText_result s text resp ctx h]
  · intro hidle
    rw [handleMicroActionClick_result s action resp ctx hidle]

/-- Witness for claim C3 at a concrete input: a response carrying one
micro-action replaces the stale list. -/
theorem microActions_replaced_only_when_present_witness :
    (processUserText { idleSession with currentMicroActions := [stockAction] } ("hello")
        { plainResponse with microActions := some [] } ctx0).currentMicroActions = [] :=
  (microActions_replaced_only_when_present
      { idleSession with currentMicroActions := [stockAction] } ("hello") stockAction
      { plainResponse with microActions := some [] } ctx0 (by decide)).1

/-- Claim C4: the safety classifier is a pure function of the text; a text
whose lowercased form contains a crisis keyword is rated crisis, otherwise
one containing a caution keyword is rated caution, otherwise safe, and the
exported `checkSafetyLevel` resolves exactly this value. -/
theorem detectSafetyLevel_keyword_spec (text : String) :
    (detectSafetyLevel text = SafetyLevel.crisis ↔
      ∃ kw ∈ crisisKeywords, includes (jsToLower text) kw = true) ∧
    (detectSafetyLevel text = SafetyLevel.caution ↔
      ((∀ kw ∈ crisisKeywords, includes (jsToLower text) kw = false) ∧
       ∃ kw ∈ cautionKeywords, includes (jsToLower text) kw = true)) ∧
    (detectSafetyLevel text = SafetyLevel.safe ↔
      ((∀ kw ∈ crisisKeywords, includes (jsToLower text) kw = false) ∧
       ∀ kw ∈ cautionKeywords, includes (jsToLower text) kw = false)) ∧
    checkSafetyLevel text = detectSafetyLevel text := by
  have hiffc : ∀ l : List String, l.any (fun kw => includes (jsToLower text) kw) = true ↔
      ∃ kw ∈ l, includes (jsToLower text) kw = true := fun l => by
    simp [List.any_eq_true]
  have hifff : ∀ l : List String, l.any (fun kw => includes (jsToLower text) kw) = false ↔
      ∀ kw ∈ l, includes (jsToLower text) kw = false := fun l => by
    simp [List.any_eq_false]
  cases hc : crisisKeywords.any (fun kw => includes (jsToLower text) kw) with
  | true =>
    have hex := (hiffc crisisKeywords).mp hc
    have hdet : detectSafetyLevel text = SafetyLevel.crisis := by
      simp [detectSafetyLevel, hc]
    have hnall : ¬ ∀ kw ∈ crisisKeywords, includes (jsToLower text) kw = false := by
      obtain ⟨kw, hkw, hinc⟩ := hex
      intro hall
      exact absurd (hall kw hkw) (by simp [hinc])
    refine ⟨⟨fun _ => hex, fun _ => hdet⟩, ⟨fun hcaui => ?_, fun hr => absurd hr.1 hnall⟩,
      ⟨fun hsafei => ?_, fun hr => absurd hr.1 hnall⟩, rfl⟩
    · rw [hdet] at hcaui
      exact SafetyLevel.noConfusion hcaui
    · rw [hdet] at hsafei
      exact SafetyLevel.noConfusion hsafei
  | false =>
    have hall := (hifff crisisKeywords).mp hc
    cases hca : cautionKeywords.any (fun kw => includes (jsToLower text) kw) with
    | true =>
      have hex := (hiffc cautionKeywords).mp hca
      have hdet : detectSafetyLevel text = SafetyLevel.caution := by
        simp [detectSafetyLevel, hc, hca]
      have hnall : ¬ ∀ kw ∈ cautionKeywords, includes (jsToLower text) kw = false := by
        obtain ⟨kw, hkw, hinc⟩ := hex
        intro hall2
        exact absurd (hall2 kw hkw) (by simp [hinc])
      refine ⟨⟨fun hcr => ?_, fun hr => ?_⟩, ⟨fun _ => ⟨hall, hex⟩, fun _ => hdet⟩,
        ⟨fun hsf => ?_, fun hr => absurd hr.2 hnall⟩, rfl⟩
      · rw [hdet] at hcr
        exact SafetyLevel.noConfusion hcr
      · obtain ⟨kw, hkw, hinc⟩ := hr
        exact absurd (hall kw hkw) (by simp [hinc])
      · rw [hdet] at hsf
        exact SafetyLevel.noConfusion hsf
    | false =>
      have hallca := (hifff cautionKeywords).mp hca
      have hdet : detectSafetyLevel text = SafetyLevel.safe := by
        simp [detectSafetyLevel, hc, hca]
      refine ⟨⟨fun hcr => ?_, fun hr => ?_⟩, ⟨fun hcaui => ?_, fun hr => ?_⟩,
        ⟨fun _ => ⟨hall, hallca⟩, fun _ => hdet⟩, rfl⟩
      · rw [hdet] at hcr
        exact SafetyLevel.noConfusion hcr
      · obtain ⟨kw, hkw, hinc⟩ := hr
        exact absurd (hall kw hkw) (by simp [hinc])
      · rw [hdet] at hcaui
        exact SafetyLevel.noConfusion hcaui
      · obtain ⟨kw, hkw, hinc⟩ := hr.2
        exact absurd (hallca kw hkw) (by simp [hinc])

/-- Witness for claim C4 at concrete texts: a crisis keyword, a caution
keyword, and a keyword-free text. -/
theorem detectSafetyLevel_keyword_spec_witness :
    detectSafetyLevel ("I want to hurt myself") = SafetyLevel.crisis ∧
    detectSafetyLevel ("it all feels helpless") = SafetyLevel.caution ∧
    detectSafetyLevel ("nice weather today") = SafetyLevel.safe :=
  ⟨(detectSafetyLevel_keyword_spec ("I want to hurt myself")).1.mpr
      ⟨("hurt myself"), by decide, by decide⟩,
   (detectSafetyLevel_keyword_spec ("it all feels helpless")).2.1.mpr
      ⟨by decide, ⟨("helpless"), by decide, by decide⟩⟩,
   (detectSafetyLevel_keyword_spec ("nice weather today")).2.2.1.mpr
      ⟨by decide, by decide⟩⟩

/-- Claim C5: whenever the AI-response call fails (non-success status or
thrown error), `getAIResponse` returns the fixed safe fallback — apology
message, exactly one grounding micro-action with id fallback-1, safety
level safe, empty references list — and never propagates the error. -/
theorem getAIResponse_failure_fallback (o : AIFetchOutcome)
    (h : ∀ r : AIResponse, o ≠ AIFetchOutcome.ok r) :
    getAIResponse o = fallbackAIResponse ∧
    fallbackAIResponse.message = fallbackAIMessage ∧
    (∃ act : MicroAction, fallbackAIResponse.microActions = some [act] ∧
      act.id = ("fallback-1")) ∧
    fallbackAIResponse.safetyLevel = SafetyLevel.safe ∧
    fallbackAIResponse.references = some [] := by
  refine ⟨?_, rfl, ⟨_, rfl, rfl⟩, rfl, rfl⟩
  cases o with
  | ok r => exact absurd rfl (h r)
  | httpError st => rfl
  | threw => rfl

/-- Witness for claim C5: a 500 status yields the fixed fallback. -/
theorem getAIResponse_failure_fallback_witness :
    getAIResponse (AIFetchOutcome.httpError (500)) = fallbackAIResponse ∧
    fallbackAIResponse.message = fallbackAIMessage ∧
    (∃ act : MicroAction, fallbackAIResponse.microActions = some [act] ∧
      act.id = ("fallback-1")) ∧
    fallbackAIResponse.safetyLevel = SafetyLevel.safe ∧
    fallbackAIResponse.references = some [] :=
  getAIResponse_failure_fallback (AIFetchOutcome.httpError (500))
    (fun _ hcontra => AIFetchOutcome.noConfusion hcontra)

/-- Claim C6: the handler coerces any parsed safety level other than
caution or crisis (unrecognized or missing) to safe, while caution and
crisis pass through unchanged. -/
theorem handler_coerces_unrecognized_safety (p : ParsedLLM) (refs : List Reference) :
    ((handlerAIResponse p refs).safetyLevel = coerceSafetyLevel p.safetyLevel) ∧
    (p.safetyLevel ≠ some ("caution") → p.safetyLevel ≠ some ("crisis") →
      (handlerAIResponse p refs).safetyLevel = SafetyLevel.safe) ∧
    (p.safetyLevel = some ("caution") →
      (handlerAIResponse p refs).safetyLevel = SafetyLevel.caution) ∧
    (p.safetyLevel = some ("crisis") →
      (handlerAIResponse p refs).safetyLevel = SafetyLevel.crisis) := by
  have hfield : (handlerAIResponse p refs).safetyLevel = coerceSafetyLevel p.safetyLevel := rfl
  refine ⟨hfield, ?_, ?_, ?_⟩
  · intro h1 h2
    rw [hfield]
    unfold coerceSafetyLevel
    rw [if_neg h1, if_neg h2]
  · intro h
    rw [hfield, h]
    decide
  · intro h
    rw [hfield, h]
    decide

/-- Witness for claim C6: an unrecognized level string is coerced to safe
and a reported crisis passes through. -/
theorem handler_coerces_unrecognized_safety_witness :
    (handlerAIResponse
        { message := some ("ok"), safetyLevel := some ("banana"), microActions := none
          musicRequest := none } []).safetyLevel = SafetyLevel.safe ∧
    (handlerAIResponse
        { message := some ("ok"), safetyLevel := some ("crisis"), microActions := none
          musicRequest := none } []).safetyLevel = SafetyLevel.crisis :=
  ⟨(handler_coerces_unrecognized_safety
      { message := some ("ok"), safetyLevel := some ("banana"), microActions := none
        musicRequest := none } []).2.1 (by decide) (by decide),
   (handler_coerces_unrecognized_safety
      { message := some ("ok"), safetyLevel := some ("crisis"), microActions := none
        musicRequest := none } []).2.2.2 rfl⟩

/-- Claim C10: a parsed model response whose message field is missing or
empty still yields HTTP 200 with the fixed fallback sentence substituted as
the assistant message. -/
theorem handler_empty_message_fallback (p : ParsedLLM) (refs : List Reference)
    (h : p.message = none ∨ p.message = some ("")) :
    (handlerOutput p refs).1 = 200 ∧
    (handlerOutput p refs).2.message = handlerFallbackMessage := by
  refine ⟨rfl, ?_⟩
  have hfield : (handlerOutput p refs).2.message =
      (match jsOr p.message with
       | some m => m
       | none => handlerFallbackMessage) := rfl
  rw [hfield]
  rcases h with h | h <;> rw [h] <;> decide

/-- Witness for claim C10: a missing message field yields 200 and the
fallback sentence. -/
theorem handler_empty_message_fallback_witness :
    (handlerOutput
        { message := none, safetyLevel := some ("safe"), microActions := none
          musicRequest := none } []).1 = 200 ∧
    (handlerOutput
        { message := none, safetyLevel := some ("safe"), microActions := none
          musicRequest := none } []).2.message = handlerFallbackMessage :=
  handler_empty_message_fallback
    { message := none, safetyLevel := some ("safe"), microActions := none
      musicRequest := none } [] (Or.inl rfl)

/-- Stopping preserves the controller invariant and always leaves nothing
playing. -/
theorem stopAssistantVoice_of_inv (ps : PlayerState) (h : PlayerInv ps) :
    PlayerInv (stopAssistantVoice ps) ∧ (stopAssistantVoice ps).active = [] := by
  unfold PlayerInv at h
  cases hc : ps.current with
  | none =>
    rw [hc] at h
    simp at h
    constructor
    · unfold PlayerInv stopAssistantVoice
      rw [hc]
      simp [h, hc]
    · unfold stopAssistantVoice
      rw [hc]
      simpa using h
  | some a =>
    rw [hc] at h
    simp at h
    unfold PlayerInv stopAssistantVoice
    rw [hc]
    simp [h]

/-- One non-overlapping playback call preserves the controller invariant
and leaves no call suspended. -/
theorem seqOp_inv (st : AsyncPlayerState) (op : PlaybackOp)
    (h1 : PlayerInv st.player) (h2 : st.pending = []) :
    PlayerInv (asyncRun st (eventsOfOp op)).player ∧
    (asyncRun st (eventsOfOp op)).pending = [] := by
  cases op with
  | stop => exact ⟨(stopAssistantVoice_of_inv st.player h1).1, h2⟩
  | startRecording => exact ⟨(stopAssistantVoice_of_inv st.player h1).1, h2⟩
  | speak text newAudio fetch =>
    obtain ⟨hsi, hsa⟩ := stopAssistantVoice_of_inv st.player h1
    cases ht : (jsTrim text).isEmpty with
    | true =>
      have hid : asyncRun st (eventsOfOp (PlaybackOp.speak text newAudio fetch)) = st := by
        simp [asyncRun, eventsOfOp, asyncStep, playAssistantVoicePrologue,
          playAssistantVoiceResume, ht, h2]
      rw [hid]
      exact ⟨h1, h2⟩
    | false =>
      have hrun : asyncRun st (eventsOfOp (PlaybackOp.speak text newAudio fetch)) =
          playAssistantVoiceResume
            { player := stopAssistantVoice st.player, pending := [newAudio] } newAudio
            fetch := by
        simp [asyncRun, eventsOfOp, asyncStep, playAssistantVoicePrologue, ht, h2]
      rw [hrun]
      cases fetch with
      | ok =>
        constructor
        · unfold PlayerInv playAssistantVoiceResume
          simp [hsa]
        · unfold playAssistantVoiceResume
          simp
      | httpError status =>
        constructor
        · unfold playAssistantVoiceResume
          simpa using hsi
        · unfold playAssistantVoiceResume
          simp
      | threw =>
        constructor
        · unfold playAssistantVoiceResume
          simpa using hsi
        · unfold playAssistantVoiceResume
          simp

/-- The controller invariant holds after any sequence of non-overlapping
playback calls, with no call left suspended. -/
theorem seqRun_inv (ops : List PlaybackOp) : ∀ st : AsyncPlayerState,
    PlayerInv st.player → st.pending = [] →
    PlayerInv (asyncRun st (seqEvents ops)).player ∧
    (asyncRun st (seqEvents ops)).pending = [] := by
  induction ops with
  | nil =>
    intro st h1 h2
    exact ⟨h1, h2⟩
  | cons op rest ih =>
    intro st h1 h2
    have hsplit : asyncRun st (seqEvents (op :: rest)) =
        asyncRun (asyncRun st (eventsOfOp op)) (seqEvents rest) := by
      simp [seqEvents, asyncRun, List.foldl_append]
    rw [hsplit]
    obtain ⟨ha, hb⟩ := seqOp_inv st op h1 h2
    exact ih _ ha hb

/-- Claim C7, counterexample: two overlapping speak calls — the second
entering while the first is still suspended on its synthesis fetch — leave
two audio elements playing at once, the earlier one untracked; the stop at
the next recording start pauses only the tracked one, so recording begins
with one playback still active. -/
theorem overlapping_speaks_two_active_cex :
    (asyncRun initAsyncPlayer
        [PlaybackEv.speakStart ("hello") 1, PlaybackEv.speakStart ("there") 2,
         PlaybackEv.speakResume 1 TTSOutcome.ok,
         PlaybackEv.speakResume 2 TTSOutcome.ok]).player.active = [1, 2] ∧
    ¬ (asyncRun initAsyncPlayer
        [PlaybackEv.speakStart ("hello") 1, PlaybackEv.speakStart ("there") 2,
         PlaybackEv.speakResume 1 TTSOutcome.ok,
         PlaybackEv.speakResume 2 TTSOutcome.ok]).player.active.length ≤ 1 ∧
    (asyncRun initAsyncPlayer
        ([PlaybackEv.speakStart ("hello") 1, PlaybackEv.speakStart ("there") 2,
          PlaybackEv.speakResume 1 TTSOutcome.ok,
          PlaybackEv.speakResume 2 TTSOutcome.ok] ++
         [PlaybackEv.startRecording])).player.active = [1] := by
  decide

/-- Claim C7, amended: each `playAssistantVoice` call runs
`stopAssistantVoice` — pausing and releasing the tracked playback — in its
synchronous prologue, before starting synthesis, and a recording start
issues the same stop; consequently, on every execution whose playback calls
do not overlap (each speak call's synthesis fetch settles before the next
playback event), at most one playback instance is active at any time and
none is active when recording begins. Overlapping calls can instead leave
two instances active at once, as the counterexample shows. -/
theorem playback_single_when_not_overlapping (ops : List PlaybackOp)
    (st : AsyncPlayerState) (text : String) (newAudio : Nat)
    (ht : (jsTrim text).isEmpty = false) :
    (playAssistantVoicePrologue st text newAudio).player = stopAssistantVoice st.player ∧
    (asyncRun initAsyncPlayer (seqEvents ops)).player.active.length ≤ 1 ∧
    (asyncRun initAsyncPlayer
        (seqEvents (ops ++ [PlaybackOp.startRecording]))).player.active = [] := by
  refine ⟨?_, ?_, ?_⟩
  · simp [playAssistantVoicePrologue, ht]
  · obtain ⟨hinv, _⟩ := seqRun_inv ops initAsyncPlayer rfl rfl
    unfold PlayerInv at hinv
    rw [hinv]
    cases (asyncRun initAsyncPlayer (seqEvents ops)).player.current <;> simp
  · obtain ⟨hinv, _⟩ := seqRun_inv ops initAsyncPlayer rfl rfl
    have hsplit : asyncRun initAsyncPlayer (seqEvents (ops ++ [PlaybackOp.startRecording])) =
        asyncStep (asyncRun initAsyncPlayer (seqEvents ops)) PlaybackEv.startRecording := by
      simp [seqEvents, asyncRun, List.foldl_append, eventsOfOp]
    rw [hsplit]
    exact (stopAssistantVoice_of_inv _ hinv).2

/-- Witness for claim C7 (amended) at a concrete input: one completed speak
call followed by a recording start. -/
theorem playback_single_when_not_overlapping_witness :
    (playAssistantVoicePrologue initAsyncPlayer ("hi") 1).player =
      stopAssistantVoice initAsyncPlayer.player ∧
    (asyncRun initAsyncPlayer
        (seqEvents [PlaybackOp.speak ("hi") 1 TTSOutcome.ok])).player.active.length ≤ 1 ∧
    (asyncRun initAsyncPlayer
        (seqEvents ([PlaybackOp.speak ("hi") 1 TTSOutcome.ok] ++
          [PlaybackOp.startRecording]))).player.active = [] :=
  playback_single_when_not_overlapping [PlaybackOp.speak ("hi") 1 TTSOutcome.ok]
    initAsyncPlayer ("hi") 1 (by decide)

/-- A music request that resolves no video id leaves the player list
unchanged. -/
theorem handleMusicRequest_of_none (players : List MusicPlayerInstance) (req : MusicRequest)
    (trigId : String) (search : YTSearchOutcome) (pid : String)
    (hr : resolveVideoId req search = none) :
    handleMusicRequest players req trigId search pid = players := by
  unfold handleMusicRequest
  split
  · rfl
  · rw [hr]

/-- Claim C8: the music resolver is a no-op when the request lacks both a
direct id and a search query; a failed or empty search yields no appended
player (and, the function being total, no raised error); a resolved id
appends exactly one player tagged with the triggering message id. -/
theorem handleMusicRequest_resolution_spec (players : List MusicPlayerInstance)
    (req : MusicRequest) (trigId : String) (search : YTSearchOutcome) (pid : String) :
    (strTruthy req.searchQuery = false → strTruthy req.youtubeVideoId = false →
      handleMusicRequest players req trigId search pid = players) ∧
    (resolveVideoId req search = none →
      handleMusicRequest players req trigId search pid = players) ∧
    (strTruthy req.youtubeVideoId = false →
      (search = YTSearchOutcome.threw ∨ (∃ st, search = YTSearchOutcome.httpError st) ∨
       search = YTSearchOutcome.ok none ∨ search = YTSearchOutcome.ok (some (""))) →
      resolveVideoId req search = none) ∧
    (∀ v, resolveVideoId req search = some v →
      handleMusicRequest players req trigId search pid =
        players ++
          [{ id := pid, triggerMessageId := trigId, videoId := v
             title := (jsOr req.musicType).getD ("Music") }]) := by
  refine ⟨?_, ?_, ?_, ?_⟩
  · intro hs hy
    unfold handleMusicRequest
    rw [if_pos (by simp [hs, hy])]
  · intro hr
    exact handleMusicRequest_of_none players req trigId search pid hr
  · intro hy hfail
    unfold resolveVideoId
    have hjs : jsOr req.youtubeVideoId = none := by
      unfold jsOr
      rw [hy]
      simp
    rw [hjs]
    cases hst : strTruthy req.searchQuery with
    | false => simp
    | true =>
      rcases hfail with hf | ⟨st, hf⟩ | hf | hf <;> rw [hf] <;> simp [jsOr, strTruthy] <;>
        decide
  · intro v hv
    have hguard : (!strTruthy req.searchQuery && !strTruthy req.youtubeVideoId) = false := by
      cases hs : strTruthy req.searchQuery <;> cases hy : strTruthy req.youtubeVideoId
      · exfalso
        unfold resolveVideoId jsOr at hv
        rw [hs, hy] at hv
        simp at hv
      · simp [hs, hy]
      · simp [hs, hy]
      · simp [hs, hy]
    unfold handleMusicRequest
    rw [hguard, hv]
    simp

/-- Witness for claim C8: a resolvable search query appends exactly one
tagged player. -/
theorem handleMusicRequest_resolution_spec_witness :
    handleMusicRequest [] demoMusicReq ("msg-a1") (YTSearchOutcome.ok (some ("abc")))
        ("p1") =
      [] ++
        [{ id := ("p1"), triggerMessageId := ("msg-a1"), videoId := ("abc")
           title := (jsOr demoMusicReq.musicType).getD ("Music") }] :=
  (handleMusicRequest_resolution_spec [] demoMusicReq ("msg-a1")
      (YTSearchOutcome.ok (some ("abc"))) ("p1")).2.2.2 ("abc") (by decide)

/-- Claim C9: the logger degrades safely — reads return the empty list on
the client, without `fs`, with a missing file or with a failing read, and
`logConversation` is a silent no-op on the client and swallows a failing
append; both functions are total, so no exception escapes. -/
theorem logger_degrades_safely {Log : Type} (parseLine : String → Option Log)
    (env : LogEnv) (line : String) :
    ((env.isClient = true ∨ env.hasFs = false) →
      readConversationLogs parseLine env = [] ∧ logConversation env line = env) ∧
    (env.file = none → readConversationLogs parseLine env = []) ∧
    (env.readFails = true → readConversationLogs parseLine env = []) ∧
    (env.appendFails = true → logConversation env line = env) := by
  refine ⟨?_, ?_, ?_, ?_⟩
  · intro h
    have hcond : (env.isClient || !env.hasFs) = true := by
      rcases h with h | h <;> simp [h]
    constructor
    · unfold readConversationLogs
      rw [if_pos hcond]
    · unfold logConversation
      rw [if_pos hcond]
  · intro hf
    unfold readConversationLogs
    split
    · rfl
    · rw [hf]
  · intro hr
    unfold readConversationLogs
    split
    · rfl
    · cases hf : env.file with
      | none => rfl
      | some content => simp [hr]
  · intro ha
    unfold logConversation appendFileRaw
    rw [if_pos ha]
    simp

/-- Witness for claim C9: in a pure client context the read is empty and
the append is a no-op. -/
theorem logger_degrades_safely_witness :
    readConversationLogs (fun _ => (none : Option Nat)) deadEnv = [] ∧
    logConversation deadEnv ("x") = deadEnv :=
  (logger_degrades_safely (fun _ => (none : Option Nat)) deadEnv ("x")).1 (Or.inl rfl)

end Liviti
